import Mathlib

/-!
Verification development for `dials/algorithms/scaling/scaling_utilities.py`.

The reflection table is embedded as a list of rows together with presence
flags for the dynamically added/removed columns (`Esq`, `centric_flag`,
`resolution`, `intensity_for_norm`).  Machine floats are modelled by exact
rationals; a cell value of `none` stands for a non-finite float (the result
of a division with zero divisor).  External collaborators that are not part
of this repository (the cctbx symmetry classifier, the cctbx resolution
binner and the C++ vector rotator) are taken as parameters, following the
collaborator contracts: the classifier is a function from miller indices to
a centric flag, the binner maps the class data and the bin width to the
interior bin means (with `none` for an empty bin) and the bin boundary
values, and the rotator maps an axis list, a vector list and an angle list
to a vector list.
-/

/-- A miller index triple. -/
abbrev MillerIndex : Type := ℤ × ℤ × ℤ

/-- One row of the reflection table as consumed by the normalisation code.
`bad_for_scaling` is the composite bad-for-scaling flag (`get_flags` with
`all=False`), `outlier_in_scaling` the outlier flag bit.  `Esq`,
`centric_flag`, `resolution` and `intensity_for_norm` are the cells of the
dynamically managed columns; they are meaningful only while the matching
presence flag of the table is set.  An `Esq` or `resolution` cell `none`
represents a non-finite float value. -/
structure NRow where
  miller_index : MillerIndex
  intensity : ℚ
  d : ℚ
  bad_for_scaling : Bool
  outlier_in_scaling : Bool
  Esq : Option ℚ
  centric_flag : Bool
  resolution : Option ℚ
  intensity_for_norm : ℚ
deriving DecidableEq, Inhabited

/-- A reflection table: rows plus presence flags for the dynamic columns. -/
structure NTable where
  rows : List NRow
  hasEsq : Bool
  has_centric_flag : Bool
  has_resolution : Bool
  has_intensity_for_norm : Bool
deriving DecidableEq, Inhabited

/-- The statistics subset: rows not flagged bad for scaling
(`reflection_table.select(~bad_refl_sel)`). -/
def subsetRows (tbl : NTable) : List NRow :=
  tbl.rows.filter (fun r => !r.bad_for_scaling)

/-- Number of centric reflections in the statistics subset
(`rt_subset['centric_flag'].count(True)`), for the classifier `c`. -/
def nCentrics (c : MillerIndex → Bool) (tbl : NTable) : ℕ :=
  (subsetRows tbl).countP (fun r => c r.miller_index)

/-- Number of acentric reflections in the statistics subset
(`rt_subset.size() - n_centrics`). -/
def nAcentrics (c : MillerIndex → Bool) (tbl : NTable) : ℕ :=
  (subsetRows tbl).length - nCentrics c tbl

/-- Negative intensities are clamped to zero in the working copy
(`intensity_for_norm.set_selected(intensity < 0.0, 0.0)`). -/
def clampNeg (q : ℚ) : ℚ := if q < 0 then 0 else q

/-- The adaptive resolution-shell count selection of `calc_normE2`
(lines 222-237): `none` encodes the insufficient-data fallback branch. -/
def selectNShells (nA nC : ℕ) : Option ℕ :=
  if 20000 < nA ∨ 20000 < nC then some 20
  else if 15000 < nA ∨ 15000 < nC then some 15
  else if nA < 10000 then none
  else some 10

/-- Output of the external cctbx binner for one symmetry class: the interior
bin means (`mean(use_binning=binner).data[1:-1]`, `none` for an empty bin)
and the bin boundary values (`binner.limits()`). -/
structure BinnerOutput where
  means : List (Option ℚ)
  limits : List ℚ
deriving DecidableEq, Inhabited

/-- The external resolution binner, as a parameter: it receives the class's
(miller index, clamped intensity) data and the step width, and returns the
interior bin means and boundaries. -/
abbrev Binner : Type := List (MillerIndex × ℚ) → Option ℚ → BinnerOutput

/-- The subset resolution cell of line 210, `1.0/rt_subset['d']**2`, with no
sentinel substitution: a zero `d` makes the reciprocal non-finite (`none`). -/
def subRes (r : NRow) : Option ℚ :=
  if r.d = 0 then none else some (1 / r.d ^ 2)

/-- The uniform bin width,
`(max(resolution) - min(resolution) + 1e-8) / n_refl_shells`; `none` when a
subset resolution is non-finite or the subset is empty. -/
def stepSize (tbl : NTable) (n : ℕ) : Option ℚ :=
  match (subsetRows tbl).mapM subRes with
  | none => none
  | some rs =>
    match rs.max?, rs.min? with
    | some mx, some mn => some ((mx - mn + 1 / 100000000) / (n : ℚ))
    | _, _ => none

/-- The (miller index, clamped intensity) data of one symmetry class of the
statistics subset (`miller_array.select_centric()` resp.
`select_acentric()`, carrying `intensity_for_norm`). -/
def classData (c : MillerIndex → Bool) (want : Bool) (tbl : NTable) :
    List (MillerIndex × ℚ) :=
  (subsetRows tbl).filterMap (fun r =>
    if c r.miller_index = want then some (r.miller_index, clampNeg r.intensity)
    else none)

/-- The binning of one symmetry class: skipped (`none`) when the class is
empty (`if n_centrics:` resp. `if n_acentrics:`), otherwise the external
binner applied to the class data and the step width. -/
def classBinning (c : MillerIndex → Bool) (b : Binner) (tbl : NTable)
    (want : Bool) (n : ℕ) : Option BinnerOutput :=
  if (if want then nCentrics c tbl else nAcentrics c tbl) = 0 then none
  else some (b (classData c want tbl) (stepSize tbl n))

/-- A class binning makes `calc_normE2` raise when an interior bin mean it
divides by is missing (`None`): `intensities / mean_values[i]` is evaluated
for every interior bin index. -/
def binsBad : Option BinnerOutput → Bool
  | none => false
  | some bo =>
    (List.range (bo.limits.length - 1)).any (fun i => (bo.means.getD i none).isNone)

/-- The full-table resolution of lines 264-266: `d == 0` is substituted by
the sentinel `1.0` before the reciprocal is taken. -/
def resOfRow (r : NRow) : ℚ :=
  1 / (if r.d = 0 then 1 else r.d) ^ 2

/-- The shell-assignment loops of lines 268-283 for one row of one class:
for each interior bin `i` in order, if the row's resolution lies in the
half-open interval `(limits[i], limits[i+1]]` the row's `Esq` becomes
`intensity / mean[i]` (a `none` cell when the mean is zero, i.e. a
non-finite float).  A `none` class binning means the class loop is skipped.
The `none`-mean branch keeps the accumulator; it is unreachable behind the
`binsBad` gate. -/
def shellAssign : Option BinnerOutput → ℚ → ℚ → Option ℚ → Option ℚ
  | none, _, _, e0 => e0
  | some bo, res, inten, e0 =>
    (List.range (bo.limits.length - 1)).foldl
      (fun acc i =>
        if bo.limits.getD i 0 < res ∧ res ≤ bo.limits.getD (i + 1) 0 then
          match bo.means.getD i none with
          | none => acc
          | some m => if m = 0 then none else some (inten / m)
        else acc) e0

/-- The final `Esq` cell of one row in the non-fallback path: `Esq` starts
at 0, is assigned by the row's class's shell loop on the
sentinel-substituted resolution, and is forced back to 0 for rows with
`d == 0` (line 288, after the shell loops, overriding any shell-computed
value). -/
def normEsq (c : MillerIndex → Bool) (cb ab : Option BinnerOutput)
    (r : NRow) : Option ℚ :=
  if r.d = 0 then some 0
  else if c r.miller_index then shellAssign cb (resOfRow r) r.intensity (some 0)
  else shellAssign ab (resOfRow r) r.intensity (some 0)

/-- One row of the non-fallback output of `calc_normE2`.  `d` itself is
substituted by the sentinel and then restored to 0 (line 287), so it is
unchanged end to end.  The recomputed `centric_flag` and `resolution`
cells are written and the columns then dropped at table level. -/
def normRow (c : MillerIndex → Bool) (cb ab : Option BinnerOutput)
    (r : NRow) : NRow :=
  { r with
    centric_flag := c r.miller_index
    resolution := some (resOfRow r)
    Esq := normEsq c cb ab r }

/-- The non-fallback result table of `calc_normE2`: every row transformed by
`normRow`, the `Esq` column present, the working columns deleted. -/
def normOutput (c : MillerIndex → Bool) (cb ab : Option BinnerOutput)
    (tbl : NTable) : NTable :=
  { rows := tbl.rows.map (normRow c cb ab)
    hasEsq := true
    has_centric_flag := false
    has_resolution := false
    has_intensity_for_norm := false }

/-- The insufficient-data fallback result (lines 227-235): `Esq` set to 1.0
for every row of the full table and the working columns deleted (the
deletions are no-ops on columns the input table does not carry). -/
def fallbackTable (tbl : NTable) : NTable :=
  { rows := tbl.rows.map (fun r => { r with Esq := some (1 : ℚ) })
    hasEsq := true
    has_centric_flag := false
    has_resolution := false
    has_intensity_for_norm := false }

/-- The branch of `calc_normE2` on the shell-count selection, staged on its
result: the fallback on `none`, otherwise the binning and assignment stage
(where `none` models a raised exception from a missing interior bin
mean). -/
def calc_normE2_go (c : MillerIndex → Bool) (b : Binner) (tbl : NTable) :
    Option ℕ → Option NTable
  | none => some (fallbackTable tbl)
  | some n =>
    if binsBad (classBinning c b tbl true n) || binsBad (classBinning c b tbl false n) then
      none
    else
      some (normOutput c (classBinning c b tbl true n) (classBinning c b tbl false n) tbl)

/-- `calc_normE2` (lines 191-293) over the classifier `c` and binner `b`:
select the statistics subset, count the classes, either take the
insufficient-data fallback or bin each nonempty class and assign normalised
intensities. -/
def calc_normE2 (c : MillerIndex → Bool) (b : Binner) (tbl : NTable) :
    Option NTable :=
  calc_normE2_go c b tbl (selectNShells (nAcentrics c tbl) (nCentrics c tbl))

/-- The statistics-subset resolution computation (line 210,
`1.0/rt_subset['d']**2`) divides by zero exactly when its divisor `d**2`
vanishes for some subset row; no sentinel substitution is applied there. -/
def subsetResolutionDividesByZero (tbl : NTable) : Bool :=
  (subsetRows tbl).any (fun r => decide (r.d ^ 2 = 0))

/-- The full-table resolution computation (lines 264-266) divides by zero
exactly when its divisor, the square of the sentinel-substituted `d`,
vanishes for some row. -/
def fullResolutionDividesByZero (tbl : NTable) : Bool :=
  tbl.rows.any (fun r => decide ((if r.d = 0 then (1 : ℚ) else r.d) ^ 2 = 0))

/-- Comparison of an `Esq` cell against a cutoff.  A `none` cell (a
non-finite float) is treated as not exceeding the cutoff; the theorems about
outlier flagging quantify over tables with finite cells only. -/
def cellGT (e : Option ℚ) (cutoff : ℚ) : Bool :=
  match e with
  | some q => decide (cutoff < q)
  | none => false

/-- First pass of `set_wilson_outliers` (lines 299-303): OR the outlier flag
into every centric reflection with `Esq > 23.91`. -/
def wilsonPassCentric (tbl : NTable) : NTable :=
  { tbl with rows := tbl.rows.map (fun r =>
      { r with outlier_in_scaling :=
          r.outlier_in_scaling || (r.centric_flag && cellGT r.Esq (2391 / 100)) }) }

/-- Second pass of `set_wilson_outliers` (lines 305-309): OR the outlier
flag into every acentric reflection with `Esq > 13.82`. -/
def wilsonPassAcentric (tbl : NTable) : NTable :=
  { tbl with rows := tbl.rows.map (fun r =>
      { r with outlier_in_scaling :=
          r.outlier_in_scaling || (!r.centric_flag && cellGT r.Esq (1382 / 100)) }) }

/-- `set_wilson_outliers` (lines 295-318): requires the `Esq` and
`centric_flag` columns (`none` models the key error when one is absent) and
runs the centric pass then the acentric pass. -/
def set_wilson_outliers (tbl : NTable) : Option NTable :=
  if tbl.hasEsq && tbl.has_centric_flag then
    some (wilsonPassAcentric (wilsonPassCentric tbl))
  else none

/-- A 3-vector of float values, modelled by exact rationals. -/
abbrev Vec3 : Type := ℚ × ℚ × ℚ

/-- One row of the reflection table as consumed by the frame transform. -/
structure VRow where
  phi : ℚ
  s1 : Vec3
  intensity : ℚ
  d : ℚ
  miller_index : MillerIndex
deriving DecidableEq, Inhabited

/-- A reflection table for the frame transform: rows of permanent columns,
the dynamically added vector columns (`s0`, `s0c`, `s1c`; `none` when
absent), and the cells of any further pre-existing columns. -/
structure VTable where
  rows : List VRow
  s0 : Option (List Vec3)
  s0c : Option (List Vec3)
  s1c : Option (List Vec3)
  extra : List (List ℚ)
deriving DecidableEq, Inhabited

/-- The external `rotate_vectors_about_axis` primitive, as a parameter:
axis list, vector list and angle list to rotated vector list. -/
abbrev Rotator : Type := List Vec3 → List Vec3 → List ℚ → List Vec3

/-- The IEEE double value of `math.pi`, an exact dyadic rational. -/
def float_pi : ℚ := 884279719003555 / 281474976710656

/-- The de-rotation angles of line 159:
`reflection_table['phi'] * -1.0 * pi / 180` (minus phi in radians). -/
def derotationAngles (tbl : VTable) : List ℚ :=
  tbl.rows.map (fun r => r.phi * (-1) * float_pi / 180)

/-- `align_rotation_axis_along_z` (lines 170-179) over the external rotator
and the float `acos` and square-root routines: the axis list exactly equal
to `[(0.0, 0.0, 1.0)]` is passed through unchanged; otherwise the vectors
are rotated about the cross product of the axis with z by the angle between
the axis and z. -/
def align_rotation_axis_along_z (rotate : Rotator) (acosF sqrtF : ℚ → ℚ)
    (exp_rot_axis : List Vec3) (vectors : List Vec3) : List Vec3 :=
  if exp_rot_axis = [((0 : ℚ), (0 : ℚ), (1 : ℚ))] then vectors
  else
    match exp_rot_axis.getD 0 (0, 0, 0) with
    | (ux, uy, uz) =>
      rotate [(uy, -1 * ux, 0)] vectors
        (List.replicate vectors.length
          (acosF (uz / sqrtF (ux ^ 2 + uy ^ 2 + uz ^ 2))))

/-- The cross product of the rotation axis with the reference axis z, as the
code forms it at line 175: `(uy, -1.0*ux, 0.0)`. -/
def crossWithZ (axis : Vec3) : Vec3 :=
  (axis.2.1, -1 * axis.1, 0)

/-- `calc_crystal_frame_vectors` (lines 154-168): populate `s0`, de-rotate
`s1` and `s0` about the rotation axis by minus phi in radians, then re-align
both results so the rotation axis is along z. -/
def calc_crystal_frame_vectors (rotate : Rotator) (acosF sqrtF : ℚ → ℚ)
    (beam_s0 : Vec3) (rot_axis : Vec3) (tbl : VTable) : VTable :=
  { tbl with
    s0 := some (List.replicate tbl.rows.length beam_s0)
    s1c := some (align_rotation_axis_along_z rotate acosF sqrtF [rot_axis]
      (rotate [rot_axis] (tbl.rows.map VRow.s1) (derotationAngles tbl)))
    s0c := some (align_rotation_axis_along_z rotate acosF sqrtF [rot_axis]
      (rotate [rot_axis] (List.replicate tbl.rows.length beam_s0)
        (derotationAngles tbl))) }

/-- The no-shell predicate for one row: its resolution lies in no half-open
interior shell interval `(limits[i], limits[i+1]]` of its class's binning
(trivially satisfied when the class loop is skipped). -/
def noShellMatch : Option BinnerOutput → ℚ → Prop
  | none, _ => True
  | some bo, res =>
    ∀ j, j < bo.limits.length - 1 →
      ¬(bo.limits.getD j 0 < res ∧ res ≤ bo.limits.getD (j + 1) 0)

/-- Every interior bin mean of a class binning is present and positive
(trivially satisfied when the class loop is skipped). -/
def binMeansPositive : Option BinnerOutput → Prop
  | none => True
  | some bo =>
    ∀ j, j < bo.limits.length - 1 →
      ∃ m, bo.means.getD j none = some m ∧ 0 < m

/-- A generic well-behaved acentric reflection row used to build concrete
tables: miller index (1,1,1), intensity 2, d 1, no flags set, dynamic cells
at their defaults. -/
def baseRow : NRow :=
  { miller_index := (1, 1, 1)
    intensity := 2
    d := 1
    bad_for_scaling := false
    outlier_in_scaling := false
    Esq := none
    centric_flag := false
    resolution := none
    intensity_for_norm := 0 }

/-- A classifier calling exactly the miller index (0,0,1) centric. -/
def centricOn001 : MillerIndex → Bool :=
  fun m => decide (m = ((0 : ℤ), (0 : ℤ), (1 : ℤ)))

/-- A classifier calling every reflection acentric. -/
def allAcentric : MillerIndex → Bool := fun _ => false

/-- A binner returning no bins at all. -/
def trivialBinner : Binner := fun _ _ => ⟨[], []⟩

/-- A two-row table whose statistics subset is far below the 10000-acentric
threshold. -/
def tblC1 : NTable :=
  ⟨[baseRow, { baseRow with outlier_in_scaling := true }], false, false, false, false⟩

/-- A centric row with positive intensity used in the C2 counterexample. -/
def rowCent7 : NRow := { baseRow with miller_index := (0, 0, 1), intensity := 7 }

/-- An acentric row with negative intensity used in the C2 counterexample. -/
def rowAcNeg : NRow := { baseRow with intensity := -5 }

/-- Centric filler row for the C2 counterexample table. -/
def fillC2 : NRow := { baseRow with miller_index := (0, 0, 1), intensity := 3 }

/-- Binning of the centric class in the C2 counterexample: one interior bin
covering (0, 100], whose clamped-intensity mean is zero. -/
def boC2c : BinnerOutput := ⟨[some 0], [0, 100]⟩

/-- Binning of the acentric class in the C2 counterexample: one interior
bin covering (0, 100], with mean one. -/
def boC2a : BinnerOutput := ⟨[some 1], [0, 100]⟩

/-- The C2 counterexample binner: it dispatches on the miller index of the
first datum of the class handed to it. -/
def binC2 : Binner := fun data _ =>
  if data.head?.map Prod.fst = some ((0 : ℤ), (0 : ℤ), (1 : ℤ)) then boC2c else boC2a

/-- The rows of the C2 counterexample table: one centric row with positive
intensity, one acentric row with negative intensity, and 9999 centric plus
9999 acentric filler rows, so that both class counts are exactly 10000. -/
def tblC2rows : List NRow :=
  rowCent7 :: rowAcNeg :: (List.replicate 9999 fillC2 ++ List.replicate 9999 baseRow)

/-- The C2 counterexample table. -/
def tblC2 : NTable := ⟨tblC2rows, false, false, false, false⟩

/-- The non-fallback output of `calc_normE2` on the C2 counterexample. -/
def outC2 : NTable := normOutput centricOn001 (some boC2c) (some boC2a) tblC2

/-- A positive-mean single-bin binning covering (0, 100]. -/
def boPos : BinnerOutput := ⟨[some 2], [0, 100]⟩

/-- A binner constantly returning the positive-mean single-bin binning. -/
def binPos : Binner := fun _ _ => boPos

/-- An acentric row with intensity 6 for the C2 amended-claim witness. -/
def rowW6 : NRow := { baseRow with intensity := 6 }

/-- A centric row with intensity 5 for the C2 amended-claim witness. -/
def rowWC : NRow := { baseRow with miller_index := (0, 0, 1), intensity := 5 }

/-- The rows of the C2 amended-claim witness table: the probe row, one
centric row and 10000 acentric filler rows. -/
def tblC2wrows : List NRow := rowW6 :: rowWC :: List.replicate 10000 baseRow

/-- The C2 amended-claim witness table. -/
def tblC2w : NTable := ⟨tblC2wrows, false, false, false, false⟩

/-- The non-fallback output of `calc_normE2` on the C2 witness table. -/
def outC2w : NTable := normOutput centricOn001 (some boPos) (some boPos) tblC2w

/-- A row with `d == 0` (the zero-resolution sentinel input). -/
def rowD0 : NRow := { baseRow with d := 0 }

/-- The rows of the C4 witness table: the `d == 0` row followed by 10000
well-behaved acentric rows. -/
def tblC4rows : List NRow := rowD0 :: List.replicate 10000 baseRow

/-- The C4 witness table. -/
def tblC4 : NTable := ⟨tblC4rows, false, false, false, false⟩

/-- The non-fallback output of `calc_normE2` on the C4 witness table. -/
def outC4 : NTable := normOutput allAcentric none (some boPos) tblC4

/-- A single-bin binning whose lower boundary is exactly 1, for the C9
boundary witness. -/
def boEdge : BinnerOutput := ⟨[some 5], [1, 100]⟩

/-- A binner constantly returning the boundary binning. -/
def binEdge : Binner := fun _ _ => boEdge

/-- An acentric row with `d = 1`, hence resolution exactly 1, the lowest
bin boundary of `boEdge`. -/
def rowEdge : NRow := { baseRow with intensity := 4 }

/-- The rows of the C9 witness table. -/
def tblC9rows : List NRow := rowEdge :: List.replicate 10000 baseRow

/-- The C9 witness table. -/
def tblC9 : NTable := ⟨tblC9rows, false, false, false, false⟩

/-- The non-fallback output of `calc_normE2` on the C9 witness table. -/
def outC9 : NTable := normOutput allAcentric none (some boEdge) tblC9

/-- The C5 counterexample table: an unflagged row with `d == 0` in the
statistics subset, next to a well-behaved row. -/
def tblC5 : NTable := ⟨[rowD0, baseRow], false, false, false, false⟩

/-- The C3 witness table: a centric row just above the centric cutoff, an
acentric row just above the acentric cutoff, an acentric row with a
previously set outlier flag, and a centric row just below the centric
cutoff. -/
def tblC3 : NTable :=
  ⟨[{ baseRow with Esq := some 24, centric_flag := true },
    { baseRow with Esq := some 14 },
    { baseRow with Esq := some 1, outlier_in_scaling := true },
    { baseRow with Esq := some (239 / 10), centric_flag := true }],
   true, true, false, false⟩

/-- A rotator ignoring its input, used to observe that the general path of
the axis alignment is taken. -/
def cexRotate : Rotator := fun _ _ _ => [((2 : ℚ), 0, 0)]

/-- A rotator returning its input vectors unchanged. -/
def idRotate : Rotator := fun _ vs _ => vs

/-- A one-row table for the frame-transform witness, with one extra
pre-existing column. -/
def tblV : VTable :=
  ⟨[⟨90, (1, 0, 0), 1, 1, (1, 0, 0)⟩], none, none, none, [[5]]⟩

/-- Filtering a replicated list keeps all of it or none of it. -/
theorem filterReplicate {α : Type} (p : α → Bool) (a : α) (n : ℕ) :
    (List.replicate n a).filter p = if p a then List.replicate n a else [] := by
  induction n with
  | zero => simp
  | succ k ih => cases h : p a <;> simp_all [List.replicate_succ, List.filter_cons]

/-- Counting over a replicated list. -/
theorem countPReplicate {α : Type} (p : α → Bool) (a : α) (n : ℕ) :
    (List.replicate n a).countP p = if p a then n else 0 := by
  induction n with
  | zero => simp
  | succ k ih => cases h : p a <;> simp_all [List.replicate_succ, List.countP_cons]

/-- Mapping a constant function is replication. -/
theorem mapConstReplicate {α β : Type} (l : List α) (x : β) :
    l.map (fun _ => x) = List.replicate l.length x := by
  induction l with
  | nil => rfl
  | cons a t ih => simp [List.replicate_succ, ih]

/-- `getD` at an in-range index commutes with `map`. -/
theorem getDMap {α β : Type} [Inhabited α] [Inhabited β] (f : α → β)
    (l : List α) (i : ℕ) (h : i < l.length) :
    (l.map f).getD i default = f (l.getD i default) := by
  induction l generalizing i with
  | nil => simp at h
  | cons a t ih =>
    cases i with
    | zero => simp
    | succ j =>
      simp only [List.map_cons, List.getD_cons_succ]
      exact ih j (by simpa using h)

/-- The shell fold leaves the accumulator unchanged when no interval test
fires. -/
theorem shellAssignSkipAux (bo : BinnerOutput) (res inten : ℚ) :
    ∀ (l : List ℕ) (e : Option ℚ),
      (∀ j ∈ l, ¬(bo.limits.getD j 0 < res ∧ res ≤ bo.limits.getD (j + 1) 0)) →
      l.foldl
        (fun acc i =>
          if bo.limits.getD i 0 < res ∧ res ≤ bo.limits.getD (i + 1) 0 then
            match bo.means.getD i none with
            | none => acc
            | some m => if m = 0 then none else some (inten / m)
          else acc) e = e := by
  intro l
  induction l with
  | nil => intro e _; rfl
  | cons a t ih =>
    intro e h
    rw [List.foldl_cons, if_neg (h a (List.mem_cons_self a t))]
    exact ih e (fun j hj => h j (List.mem_cons_of_mem a hj))

/-- A row whose resolution matches no interior shell of its class keeps the
`Esq` accumulator it started with. -/
theorem shellAssignSkip (obo : Option BinnerOutput) (res inten : ℚ)
    (e : Option ℚ) (h : noShellMatch obo res) :
    shellAssign obo res inten e = e := by
  cases obo with
  | none => rfl
  | some bo =>
    exact shellAssignSkipAux bo res inten _ e
      (fun j hj => h j (List.mem_range.mp hj))

/-- The shell fold preserves definedness and conditional non-negativity of
the accumulator when every interior bin mean it can divide by is positive. -/
theorem shellAssignPosAux (bo : BinnerOutput) (res inten : ℚ) :
    ∀ (l : List ℕ) (e : Option ℚ),
      (∀ j ∈ l, ∃ m, bo.means.getD j none = some m ∧ 0 < m) →
      (∃ q, e = some q ∧ (0 ≤ inten → 0 ≤ q)) →
      ∃ q,
        l.foldl
          (fun acc i =>
            if bo.limits.getD i 0 < res ∧ res ≤ bo.limits.getD (i + 1) 0 then
              match bo.means.getD i none with
              | none => acc
              | some m => if m = 0 then none else some (inten / m)
            else acc) e = some q ∧ (0 ≤ inten → 0 ≤ q) := by
  intro l
  induction l with
  | nil => intro e _ he; exact he
  | cons a t ih =>
    intro e hm he
    rw [List.foldl_cons]
    refine ih _ (fun j hj => hm j (List.mem_cons_of_mem a hj)) ?_
    by_cases hc : bo.limits.getD a 0 < res ∧ res ≤ bo.limits.getD (a + 1) 0
    · rw [if_pos hc]
      obtain ⟨m, hmv, hmp⟩ := hm a (List.mem_cons_self a t)
      rw [hmv]
      refine ⟨inten / m, ?_, fun hi => div_nonneg hi hmp.le⟩
      simp [hmp.ne']
    · rw [if_neg hc]
      exact he

/-- Starting from the initialisation value 0, the shell assignment yields a
defined value, non-negative when the intensity is, provided every interior
bin mean of the class is positive. -/
theorem shellAssignPos (obo : Option BinnerOutput) (res inten : ℚ)
    (hm : binMeansPositive obo) :
    ∃ q, shellAssign obo res inten (some 0) = some q ∧ (0 ≤ inten → 0 ≤ q) := by
  cases obo with
  | none => exact ⟨0, rfl, fun _ => le_refl 0⟩
  | some bo =>
    exact shellAssignPosAux bo res inten _ (some 0)
      (fun j hj => hm j (List.mem_range.mp hj)) ⟨0, rfl, fun _ => le_refl 0⟩

/-- Evaluation of the shell assignment for a binning with a single interior
bin. -/
theorem shellAssignSingle (mo : Option ℚ) (lo hi res inten : ℚ)
    (e : Option ℚ) :
    shellAssign (some ⟨[mo], [lo, hi]⟩) res inten e =
      if lo < res ∧ res ≤ hi then
        match mo with
        | none => e
        | some m => if m = 0 then none else some (inten / m)
      else e := by
  unfold shellAssign
  show ([0] : List ℕ).foldl _ e = _
  rw [List.foldl_cons, List.foldl_nil]
  rfl

/-- When the shell selection falls back, `calc_normE2` returns the fallback
table. -/
theorem calcNormE2FallbackEq (c : MillerIndex → Bool) (b : Binner)
    (tbl : NTable)
    (h : selectNShells (nAcentrics c tbl) (nCentrics c tbl) = none) :
    calc_normE2 c b tbl = some (fallbackTable tbl) := by
  unfold calc_normE2
  rw [h]
  rfl

/-- When the shell selection succeeds and neither class binning is missing
an interior mean, `calc_normE2` returns the non-fallback output. -/
theorem calcNormE2SomeEq (c : MillerIndex → Bool) (b : Binner) (tbl : NTable)
    (n : ℕ)
    (hsel : selectNShells (nAcentrics c tbl) (nCentrics c tbl) = some n)
    (hb1 : binsBad (classBinning c b tbl true n) = false)
    (hb2 : binsBad (classBinning c b tbl false n) = false) :
    calc_normE2 c b tbl =
      some (normOutput c (classBinning c b tbl true n)
        (classBinning c b tbl false n) tbl) := by
  unfold calc_normE2
  rw [hsel]
  simp [calc_normE2_go, hb1, hb2]

/-- Inversion: a successful non-fallback run of `calc_normE2` produced the
non-fallback output. -/
theorem calcNormE2SomeInv (c : MillerIndex → Bool) (b : Binner)
    (tbl out : NTable) (n : ℕ)
    (hsel : selectNShells (nAcentrics c tbl) (nCentrics c tbl) = some n)
    (hout : calc_normE2 c b tbl = some out) :
    out = normOutput c (classBinning c b tbl true n)
      (classBinning c b tbl false n) tbl := by
  unfold calc_normE2 at hout
  rw [hsel] at hout
  cases hb : binsBad (classBinning c b tbl true n) || binsBad (classBinning c b tbl false n) with
  | false =>
    rw [calc_normE2_go, hb] at hout
    simp at hout
    exact hout.symm
  | true =>
    rw [calc_normE2_go, hb] at hout
    simp at hout

/-- A row of the non-fallback output of `calc_normE2` is the transform of
the matching input row. -/
theorem calcNormE2Row (c : MillerIndex → Bool) (b : Binner)
    (tbl out : NTable) (n i : ℕ)
    (hsel : selectNShells (nAcentrics c tbl) (nCentrics c tbl) = some n)
    (hout : calc_normE2 c b tbl = some out)
    (hi : i < tbl.rows.length) :
    out.rows.getD i default =
      normRow c (classBinning c b tbl true n) (classBinning c b tbl false n)
        (tbl.rows.getD i default) := by
  rw [calcNormE2SomeInv c b tbl out n hsel hout]
  exact getDMap _ _ i hi

/-- The fallback selection happens exactly under the source's count tests. -/
theorem selectNShellsNoneOf (nA nC : ℕ) (hA : nA < 10000) (hC : nC ≤ 15000) :
    selectNShells nA nC = none := by
  have h1 : ¬(20000 < nA ∨ 20000 < nC) := by omega
  have h2 : ¬(15000 < nA ∨ 15000 < nC) := by omega
  simp [selectNShells, h1, h2, hA]

/-- The alignment step passes vectors through unchanged on the canonical
axis list. -/
theorem alignZId (rotate : Rotator) (acosF sqrtF : ℚ → ℚ)
    (vectors : List Vec3) :
    align_rotation_axis_along_z rotate acosF sqrtF
      [((0 : ℚ), (0 : ℚ), (1 : ℚ))] vectors = vectors := by
  unfold align_rotation_axis_along_z
  rw [if_pos rfl]

/-- The alignment step preserves the vector count whenever the rotator
does. -/
theorem alignLength (rotate : Rotator) (acosF sqrtF : ℚ → ℚ)
    (axis : List Vec3) (vs : List Vec3)
    (hlen : ∀ ax vecs angs, (rotate ax vecs angs).length = vecs.length) :
    (align_rotation_axis_along_z rotate acosF sqrtF axis vs).length = vs.length := by
  unfold align_rotation_axis_along_z
  by_cases h : axis = [((0 : ℚ), (0 : ℚ), (1 : ℚ))]
  · rw [if_pos h]
  · rw [if_neg h]
    exact hlen _ _ _

/-- The probe centric row of the C2 table is not flagged bad. -/
theorem badCent7 : (!rowCent7.bad_for_scaling) = true := by decide

/-- The probe acentric row of the C2 table is not flagged bad. -/
theorem badAcNeg : (!rowAcNeg.bad_for_scaling) = true := by decide

/-- The centric filler row of the C2 table is not flagged bad. -/
theorem badFillC2 : (!fillC2.bad_for_scaling) = true := by decide

/-- The generic filler row is not flagged bad. -/
theorem badBase : (!baseRow.bad_for_scaling) = true := by decide

/-- The classifier on the probe centric row of the C2 table. -/
theorem centCent7 : centricOn001 rowCent7.miller_index = true := by decide

/-- The classifier on the probe acentric row of the C2 table. -/
theorem centAcNeg : centricOn001 rowAcNeg.miller_index = false := by decide

/-- The classifier on the centric filler row of the C2 table. -/
theorem centFillC2 : centricOn001 fillC2.miller_index = true := by decide

/-- The classifier on the generic filler row. -/
theorem centBase : centricOn001 baseRow.miller_index = false := by decide

/-- No row of the C2 counterexample table is flagged bad. -/
theorem subsetRowsTblC2 : subsetRows tblC2 = tblC2rows := by
  show tblC2rows.filter (fun r => !r.bad_for_scaling) = tblC2rows
  unfold tblC2rows
  simp only [List.filter_cons, List.filter_append, filterReplicate,
    badCent7, badAcNeg, badFillC2, badBase, if_true]

/-- The C2 counterexample table has 10000 centric subset reflections. -/
theorem nCentricsTblC2 : nCentrics centricOn001 tblC2 = 10000 := by
  unfold nCentrics
  rw [subsetRowsTblC2]
  unfold tblC2rows
  simp only [List.countP_cons, List.countP_append, countPReplicate,
    centCent7, centAcNeg, centFillC2, centBase, if_true, if_false]
  norm_num

/-- The C2 counterexample table has 20000 rows. -/
theorem lengthTblC2 : tblC2.rows.length = 20000 := by
  show tblC2rows.length = 20000
  unfold tblC2rows
  simp only [List.length_cons, List.length_append, List.length_replicate]

/-- The C2 counterexample table has 10000 acentric subset reflections. -/
theorem nAcentricsTblC2 : nAcentrics centricOn001 tblC2 = 10000 := by
  unfold nAcentrics
  rw [subsetRowsTblC2, nCentricsTblC2]
  have h : tblC2rows.length = 20000 := lengthTblC2
  rw [h]

/-- The centric class data of the C2 counterexample starts with the probe
centric row. -/
theorem classDataTblC2True :
    (classData centricOn001 true tblC2).head? =
      some (((0 : ℤ), (0 : ℤ), (1 : ℤ)), (7 : ℚ)) := by
  unfold classData
  rw [subsetRowsTblC2]
  unfold tblC2rows
  rw [List.filterMap_cons]
  have h : (if centricOn001 rowCent7.miller_index = true
      then some (rowCent7.miller_index, clampNeg rowCent7.intensity) else none) =
      some (((0 : ℤ), (0 : ℤ), (1 : ℤ)), (7 : ℚ)) := by decide
  rw [h]
  rfl

/-- The acentric class data of the C2 counterexample starts with the probe
acentric row. -/
theorem classDataTblC2False :
    (classData centricOn001 false tblC2).head? =
      some (((1 : ℤ), (1 : ℤ), (1 : ℤ)), (0 : ℚ)) := by
  unfold classData
  rw [subsetRowsTblC2]
  unfold tblC2rows
  rw [List.filterMap_cons]
  have h1 : (if centricOn001 rowCent7.miller_index = false
      then some (rowCent7.miller_index, clampNeg rowCent7.intensity) else none) =
      (none : Option (MillerIndex × ℚ)) := by decide
  rw [h1, List.filterMap_cons]
  have h2 : (if centricOn001 rowAcNeg.miller_index = false
      then some (rowAcNeg.miller_index, clampNeg rowAcNeg.intensity) else none) =
      some (((1 : ℤ), (1 : ℤ), (1 : ℤ)), (0 : ℚ)) := by decide
  rw [h2]
  rfl

/-- The C2 counterexample binner hands the centric class the zero-mean
binning. -/
theorem classBinningTblC2True :
    classBinning centricOn001 binC2 tblC2 true 10 = some boC2c := by
  unfold classBinning
  rw [if_neg]
  · show some (binC2 (classData centricOn001 true tblC2) (stepSize tblC2 10)) = _
    unfold binC2
    rw [classDataTblC2True]
    rw [if_pos (by decide)]
  · show ¬nCentrics centricOn001 tblC2 = 0
    rw [nCentricsTblC2]
    norm_num

/-- The C2 counterexample binner hands the acentric class the unit-mean
binning. -/
theorem classBinningTblC2False :
    classBinning centricOn001 binC2 tblC2 false 10 = some boC2a := by
  unfold classBinning
  rw [if_neg]
  · show some (binC2 (classData centricOn001 false tblC2) (stepSize tblC2 10)) = _
    unfold binC2
    rw [classDataTblC2False]
    rw [if_neg (by decide)]
  · show ¬nAcentrics centricOn001 tblC2 = 0
    rw [nAcentricsTblC2]
    norm_num

/-- `calc_normE2` on the C2 counterexample table runs the non-fallback path
and returns the described output. -/
theorem calcTblC2 : calc_normE2 centricOn001 binC2 tblC2 = some outC2 := by
  have h := calcNormE2SomeEq centricOn001 binC2 tblC2 10
    (by rw [nAcentricsTblC2, nCentricsTblC2]; decide)
    (by rw [classBinningTblC2True]; decide)
    (by rw [classBinningTblC2False]; decide)
  rw [h, classBinningTblC2True, classBinningTblC2False]
  rfl

/-- The probe row of the C2 witness table is not flagged bad. -/
theorem badW6 : (!rowW6.bad_for_scaling) = true := by decide

/-- The centric row of the C2 witness table is not flagged bad. -/
theorem badWC : (!rowWC.bad_for_scaling) = true := by decide

/-- The classifier on the probe row of the C2 witness table. -/
theorem centW6 : centricOn001 rowW6.miller_index = false := by decide

/-- The classifier on the centric row of the C2 witness table. -/
theorem centWC : centricOn001 rowWC.miller_index = true := by decide

/-- No row of the C2 witness table is flagged bad. -/
theorem subsetRowsTblC2w : subsetRows tblC2w = tblC2wrows := by
  show tblC2wrows.filter (fun r => !r.bad_for_scaling) = tblC2wrows
  unfold tblC2wrows
  simp only [List.filter_cons, filterReplicate, badW6, badWC, badBase, if_true]

/-- The C2 witness table has exactly one centric subset reflection. -/
theorem nCentricsTblC2w : nCentrics centricOn001 tblC2w = 1 := by
  unfold nCentrics
  rw [subsetRowsTblC2w]
  unfold tblC2wrows
  simp only [List.countP_cons, countPReplicate, centW6, centWC, centBase,
    if_true, if_false]
  norm_num

/-- The C2 witness table has 10002 rows. -/
theorem lengthTblC2w : tblC2w.rows.length = 10002 := by
  show tblC2wrows.length = 10002
  unfold tblC2wrows
  simp only [List.length_cons, List.length_replicate]

/-- The C2 witness table has 10001 acentric subset reflections. -/
theorem nAcentricsTblC2w : nAcentrics centricOn001 tblC2w = 10001 := by
  unfold nAcentrics
  rw [subsetRowsTblC2w, nCentricsTblC2w]
  have h : tblC2wrows.length = 10002 := lengthTblC2w
  rw [h]

/-- Both class binnings of the C2 witness table are the constant
positive-mean binning. -/
theorem classBinningTblC2wTrue :
    classBinning centricOn001 binPos tblC2w true 10 = some boPos := by
  unfold classBinning
  rw [if_neg]
  · rfl
  · show ¬nCentrics centricOn001 tblC2w = 0
    rw [nCentricsTblC2w]
    norm_num

/-- The acentric class binning of the C2 witness table. -/
theorem classBinningTblC2wFalse :
    classBinning centricOn001 binPos tblC2w false 10 = some boPos := by
  unfold classBinning
  rw [if_neg]
  · rfl
  · show ¬nAcentrics centricOn001 tblC2w = 0
    rw [nAcentricsTblC2w]
    norm_num

/-- `calc_normE2` on the C2 witness table runs the non-fallback path. -/
theorem calcTblC2w : calc_normE2 centricOn001 binPos tblC2w = some outC2w := by
  have h := calcNormE2SomeEq centricOn001 binPos tblC2w 10
    (by rw [nAcentricsTblC2w, nCentricsTblC2w]; decide)
    (by rw [classBinningTblC2wTrue]; decide)
    (by rw [classBinningTblC2wFalse]; decide)
  rw [h, classBinningTblC2wTrue, classBinningTblC2wFalse]
  rfl

/-- The `d == 0` row is not flagged bad. -/
theorem badD0 : (!rowD0.bad_for_scaling) = true := by decide

/-- The all-acentric classifier never returns true. -/
theorem allAcentricFalse (m : MillerIndex) : allAcentric m = false := rfl

/-- No row of the C4 witness table is flagged bad. -/
theorem subsetRowsTblC4 : subsetRows tblC4 = tblC4rows := by
  show tblC4rows.filter (fun r => !r.bad_for_scaling) = tblC4rows
  unfold tblC4rows
  simp only [List.filter_cons, filterReplicate, badD0, badBase, if_true]

/-- The C4 witness table has no centric subset reflection. -/
theorem nCentricsTblC4 : nCentrics allAcentric tblC4 = 0 := by
  unfold nCentrics
  rw [subsetRowsTblC4]
  unfold tblC4rows
  simp only [List.countP_cons, countPReplicate, allAcentricFalse,
    Bool.false_eq_true, if_false]

/-- The C4 witness table has 10001 rows. -/
theorem lengthTblC4 : tblC4.rows.length = 10001 := by
  show tblC4rows.length = 10001
  unfold tblC4rows
  simp only [List.length_cons, List.length_replicate]

/-- The C4 witness table has 10001 acentric subset reflections. -/
theorem nAcentricsTblC4 : nAcentrics allAcentric tblC4 = 10001 := by
  unfold nAcentrics
  rw [subsetRowsTblC4, nCentricsTblC4]
  have h : tblC4rows.length = 10001 := lengthTblC4
  rw [h]

/-- The centric class loop of the C4 witness table is skipped. -/
theorem classBinningTblC4True :
    classBinning allAcentric binPos tblC4 true 10 = none := by
  unfold classBinning
  rw [if_pos]
  show nCentrics allAcentric tblC4 = 0
  exact nCentricsTblC4

/-- The acentric class binning of the C4 witness table. -/
theorem classBinningTblC4False :
    classBinning allAcentric binPos tblC4 false 10 = some boPos := by
  unfold classBinning
  rw [if_neg]
  · rfl
  · show ¬nAcentrics allAcentric tblC4 = 0
    rw [nAcentricsTblC4]
    norm_num

/-- `calc_normE2` on the C4 witness table runs the non-fallback path. -/
theorem calcTblC4 : calc_normE2 allAcentric binPos tblC4 = some outC4 := by
  have h := calcNormE2SomeEq allAcentric binPos tblC4 10
    (by rw [nAcentricsTblC4, nCentricsTblC4]; decide)
    (by rw [classBinningTblC4True]; decide)
    (by rw [classBinningTblC4False]; decide)
  rw [h, classBinningTblC4True, classBinningTblC4False]
  rfl

/-- The boundary row of the C9 witness table is not flagged bad. -/
theorem badEdge : (!rowEdge.bad_for_scaling) = true := by decide

/-- No row of the C9 witness table is flagged bad. -/
theorem subsetRowsTblC9 : subsetRows tblC9 = tblC9rows := by
  show tblC9rows.filter (fun r => !r.bad_for_scaling) = tblC9rows
  unfold tblC9rows
  simp only [List.filter_cons, filterReplicate, badEdge, badBase, if_true]

/-- The C9 witness table has no centric subset reflection. -/
theorem nCentricsTblC9 : nCentrics allAcentric tblC9 = 0 := by
  unfold nCentrics
  rw [subsetRowsTblC9]
  unfold tblC9rows
  simp only [List.countP_cons, countPReplicate, allAcentricFalse,
    Bool.false_eq_true, if_false]

/-- The C9 witness table has 10001 rows. -/
theorem lengthTblC9 : tblC9.rows.length = 10001 := by
  show tblC9rows.length = 10001
  unfold tblC9rows
  simp only [List.length_cons, List.length_replicate]

/-- The C9 witness table has 10001 acentric subset reflections. -/
theorem nAcentricsTblC9 : nAcentrics allAcentric tblC9 = 10001 := by
  unfold nAcentrics
  rw [subsetRowsTblC9, nCentricsTblC9]
  have h : tblC9rows.length = 10001 := lengthTblC9
  rw [h]

/-- The centric class loop of the C9 witness table is skipped. -/
theorem classBinningTblC9True :
    classBinning allAcentric binEdge tblC9 true 10 = none := by
  unfold classBinning
  rw [if_pos]
  show nCentrics allAcentric tblC9 = 0
  exact nCentricsTblC9

/-- The acentric class binning of the C9 witness table. -/
theorem classBinningTblC9False :
    classBinning allAcentric binEdge tblC9 false 10 = some boEdge := by
  unfold classBinning
  rw [if_neg]
  · rfl
  · show ¬nAcentrics allAcentric tblC9 = 0
    rw [nAcentricsTblC9]
    norm_num

/-- `calc_normE2` on the C9 witness table runs the non-fallback path. -/
theorem calcTblC9 : calc_normE2 allAcentric binEdge tblC9 = some outC9 := by
  have h := calcNormE2SomeEq allAcentric binEdge tblC9 10
    (by rw [nAcentricsTblC9, nCentricsTblC9]; decide)
    (by rw [classBinningTblC9True]; decide)
    (by rw [classBinningTblC9False]; decide)
  rw [h, classBinningTblC9True, classBinningTblC9False]
  rfl

/-- The positive-mean binning has positive interior means. -/
theorem binMeansPositiveBoPos : binMeansPositive (some boPos) := by
  intro j hj
  have hj0 : j = 0 := Nat.lt_one_iff.mp hj
  subst hj0
  exact ⟨2, rfl, by norm_num⟩

/-- Mapping pointwise equal functions gives equal lists. -/
theorem mapCongrFn {α β : Type} (f g : α → β) (l : List α)
    (h : ∀ a, f a = g a) : l.map f = l.map g := by
  induction l with
  | nil => rfl
  | cons a t ih => simp only [List.map_cons, h a, ih]

/-- Shuffling an accumulated disjunct to the back. -/
theorem boolOrShuffle (o x y : Bool) : ((o || x) || y) = ((x || y) || o) := by
  cases o <;> cases x <;> cases y <;> rfl

/-- C1: a reflection table whose statistics subset has fewer than 10000
acentric reflections, and at most 15000 reflections of either class, makes
`calc_normE2` take the insufficient-data fallback: it returns the full
table with `Esq` equal to 1.0 in every row, with the working columns
`intensity_for_norm`, `centric_flag` and `resolution` absent, with the
outlier flags and all permanent columns unchanged, and with no rows added
or removed. -/
theorem calc_normE2_insufficient_data_fallback (c : MillerIndex → Bool)
    (b : Binner) (tbl : NTable)
    (hA : nAcentrics c tbl < 10000) (hA15 : nAcentrics c tbl ≤ 15000)
    (hC15 : nCentrics c tbl ≤ 15000) :
    calc_normE2 c b tbl = some (fallbackTable tbl) ∧
    (fallbackTable tbl).rows.map NRow.Esq =
      List.replicate tbl.rows.length (some (1 : ℚ)) ∧
    (fallbackTable tbl).hasEsq = true ∧
    (fallbackTable tbl).has_intensity_for_norm = false ∧
    (fallbackTable tbl).has_centric_flag = false ∧
    (fallbackTable tbl).has_resolution = false ∧
    (fallbackTable tbl).rows.map NRow.outlier_in_scaling =
      tbl.rows.map NRow.outlier_in_scaling ∧
    (fallbackTable tbl).rows.map NRow.intensity = tbl.rows.map NRow.intensity ∧
    (fallbackTable tbl).rows.map NRow.d = tbl.rows.map NRow.d ∧
    (fallbackTable tbl).rows.map NRow.miller_index =
      tbl.rows.map NRow.miller_index ∧
    (fallbackTable tbl).rows.length = tbl.rows.length := by
  refine ⟨calcNormE2FallbackEq c b tbl (selectNShellsNoneOf _ _ hA hC15),
    ?_, rfl, rfl, rfl, rfl, ?_, ?_, ?_, ?_, ?_⟩
  · show (tbl.rows.map _).map NRow.Esq = _
    rw [List.map_map]
    exact mapConstReplicate tbl.rows (some 1)
  · show (tbl.rows.map _).map NRow.outlier_in_scaling = _
    rw [List.map_map]
    rfl
  · show (tbl.rows.map _).map NRow.intensity = _
    rw [List.map_map]
    rfl
  · show (tbl.rows.map _).map NRow.d = _
    rw [List.map_map]
    rfl
  · show (tbl.rows.map _).map NRow.miller_index = _
    rw [List.map_map]
    rfl
  · exact List.length_map _ _

/-- C1 witness: the fallback theorem applied to a concrete two-row table. -/
theorem calc_normE2_insufficient_data_fallback_witness :
    nAcentrics allAcentric tblC1 < 10000 ∧
    nAcentrics allAcentric tblC1 ≤ 15000 ∧
    nCentrics allAcentric tblC1 ≤ 15000 ∧
    (calc_normE2 allAcentric trivialBinner tblC1 = some (fallbackTable tblC1) ∧
      (fallbackTable tblC1).rows.map NRow.Esq =
        List.replicate tblC1.rows.length (some (1 : ℚ)) ∧
      (fallbackTable tblC1).hasEsq = true ∧
      (fallbackTable tblC1).has_intensity_for_norm = false ∧
      (fallbackTable tblC1).has_centric_flag = false ∧
      (fallbackTable tblC1).has_resolution = false ∧
      (fallbackTable tblC1).rows.map NRow.outlier_in_scaling =
        tblC1.rows.map NRow.outlier_in_scaling ∧
      (fallbackTable tblC1).rows.map NRow.intensity =
        tblC1.rows.map NRow.intensity ∧
      (fallbackTable tblC1).rows.map NRow.d = tblC1.rows.map NRow.d ∧
      (fallbackTable tblC1).rows.map NRow.miller_index =
        tblC1.rows.map NRow.miller_index ∧
      (fallbackTable tblC1).rows.length = tblC1.rows.length) :=
  ⟨by decide, by decide, by decide,
    calc_normE2_insufficient_data_fallback allAcentric trivialBinner tblC1
      (by decide) (by decide) (by decide)⟩

/-- C2 counterexample: on a table with 10000 centric and 10000 acentric
statistics reflections, the non-fallback path of `calc_normE2` produces a
non-finite `Esq` for a reflection with `d` nonzero whose shell has a zero
clamped-intensity mean, and a negative `Esq` (namely -5) for a reflection
with `d` nonzero and negative raw intensity, refuting finiteness and
non-negativity as claimed. -/
theorem calc_normE2_Esq_sign_cex :
    10000 ≤ nCentrics centricOn001 tblC2 ∧
    10000 ≤ nAcentrics centricOn001 tblC2 ∧
    calc_normE2 centricOn001 binC2 tblC2 = some outC2 ∧
    (tblC2.rows.getD 0 default).d ≠ 0 ∧
    (outC2.rows.getD 0 default).Esq = none ∧
    (tblC2.rows.getD 1 default).d ≠ 0 ∧
    (outC2.rows.getD 1 default).Esq = some (-5) ∧
    ¬(0 : ℚ) ≤ (-5 : ℚ) := by
  refine ⟨by simp [nCentricsTblC2], by simp [nAcentricsTblC2], calcTblC2,
    by decide, ?_, by decide, ?_, by norm_num⟩
  · show ((tblC2rows.map
        (normRow centricOn001 (some boC2c) (some boC2a))).getD 0 default).Esq = none
    unfold tblC2rows
    rw [List.map_cons, List.getD_cons_zero]
    show normEsq centricOn001 (some boC2c) (some boC2a) rowCent7 = none
    unfold normEsq
    rw [if_neg (show ¬rowCent7.d = 0 from by show ¬(1 : ℚ) = 0; norm_num)]
    rw [if_pos (show centricOn001 rowCent7.miller_index = true from by decide)]
    have hres : resOfRow rowCent7 = 1 := by
      show (1 : ℚ) / (if (1 : ℚ) = 0 then 1 else (1 : ℚ)) ^ 2 = 1
      norm_num
    rw [hres]
    show shellAssign (some ⟨[some 0], [0, 100]⟩) 1 rowCent7.intensity (some 0) = none
    rw [shellAssignSingle]
    rw [if_pos (by norm_num)]
    show (if (0 : ℚ) = 0 then none else some (rowCent7.intensity / 0)) = none
    rw [if_pos rfl]
  · show ((tblC2rows.map
        (normRow centricOn001 (some boC2c) (some boC2a))).getD 1 default).Esq = some (-5)
    unfold tblC2rows
    rw [List.map_cons, List.map_cons, List.getD_cons_succ, List.getD_cons_zero]
    show normEsq centricOn001 (some boC2c) (some boC2a) rowAcNeg = some (-5)
    unfold normEsq
    rw [if_neg (show ¬rowAcNeg.d = 0 from by show ¬(1 : ℚ) = 0; norm_num)]
    rw [if_neg (show ¬centricOn001 rowAcNeg.miller_index = true from by decide)]
    have hres : resOfRow rowAcNeg = 1 := by
      show (1 : ℚ) / (if (1 : ℚ) = 0 then 1 else (1 : ℚ)) ^ 2 = 1
      norm_num
    rw [hres]
    show shellAssign (some ⟨[some 1], [0, 100]⟩) 1 rowAcNeg.intensity (some 0) =
      some (-5)
    rw [shellAssignSingle]
    rw [if_pos (by norm_num)]
    show (if (1 : ℚ) = 0 then none else some (rowAcNeg.intensity / 1)) = some (-5)
    rw [if_neg (by norm_num)]
    show some ((-5 : ℚ) / 1) = some (-5)
    norm_num

/-- C2 amended: in the non-fallback path of `calc_normE2`, provided every
interior bin mean handed back by the binner is present and positive, the
`Esq` of every reflection with `d` nonzero is a finite value, and it is
non-negative whenever that reflection's raw intensity is non-negative. -/
theorem calc_normE2_Esq_finite_nonneg (c : MillerIndex → Bool) (b : Binner)
    (tbl out : NTable) (n i : ℕ)
    (hsel : selectNShells (nAcentrics c tbl) (nCentrics c tbl) = some n)
    (hC1 : 1 ≤ nCentrics c tbl) (hA1 : 1 ≤ nAcentrics c tbl)
    (hout : calc_normE2 c b tbl = some out)
    (hmC : binMeansPositive (classBinning c b tbl true n))
    (hmA : binMeansPositive (classBinning c b tbl false n))
    (hi : i < tbl.rows.length)
    (hd : (tbl.rows.getD i default).d ≠ 0) :
    ∃ q, (out.rows.getD i default).Esq = some q ∧
      (0 ≤ (tbl.rows.getD i default).intensity → 0 ≤ q) := by
  rw [calcNormE2Row c b tbl out n i hsel hout hi]
  show ∃ q, normEsq c (classBinning c b tbl true n)
      (classBinning c b tbl false n) (tbl.rows.getD i default) = some q ∧
      (0 ≤ (tbl.rows.getD i default).intensity → 0 ≤ q)
  unfold normEsq
  rw [if_neg hd]
  cases hcc : c (tbl.rows.getD i default).miller_index
  · rw [if_neg Bool.false_ne_true]
    exact shellAssignPos _ _ _ hmA
  · rw [if_pos rfl]
    exact shellAssignPos _ _ _ hmC

/-- C2 amended witness: the amended theorem applied to a concrete table
with one centric and 10001 acentric reflections and positive bin means;
the probe reflection has intensity 6 and lands in the bin with mean 2, so
its `Esq` is the finite non-negative value 3. -/
theorem calc_normE2_Esq_finite_nonneg_witness :
    (outC2w.rows.getD 0 default).Esq = some 3 ∧ (0 : ℚ) ≤ 3 := by
  obtain ⟨q, hq, hqn⟩ := calc_normE2_Esq_finite_nonneg centricOn001 binPos
    tblC2w outC2w 10 0
    (by rw [nAcentricsTblC2w, nCentricsTblC2w]; decide)
    (by rw [nCentricsTblC2w]) (by rw [nAcentricsTblC2w]; norm_num)
    calcTblC2w
    (by rw [classBinningTblC2wTrue]; exact binMeansPositiveBoPos)
    (by rw [classBinningTblC2wFalse]; exact binMeansPositiveBoPos)
    (by rw [lengthTblC2w]; norm_num)
    (by decide)
  refine ⟨?_, by norm_num⟩
  show ((tblC2wrows.map
      (normRow centricOn001 (some boPos) (some boPos))).getD 0 default).Esq = some 3
  unfold tblC2wrows
  rw [List.map_cons, List.getD_cons_zero]
  show normEsq centricOn001 (some boPos) (some boPos) rowW6 = some 3
  unfold normEsq
  rw [if_neg (show ¬rowW6.d = 0 from by show ¬(1 : ℚ) = 0; norm_num)]
  rw [if_neg (show ¬centricOn001 rowW6.miller_index = true from by decide)]
  have hres : resOfRow rowW6 = 1 := by
    show (1 : ℚ) / (if (1 : ℚ) = 0 then 1 else (1 : ℚ)) ^ 2 = 1
    norm_num
  rw [hres]
  show shellAssign (some ⟨[some 2], [0, 100]⟩) 1 rowW6.intensity (some 0) = some 3
  rw [shellAssignSingle]
  rw [if_pos (by norm_num)]
  show (if (2 : ℚ) = 0 then none else some (rowW6.intensity / 2)) = some 3
  rw [if_neg (by norm_num)]
  show some ((6 : ℚ) / 2) = some 3
  norm_num

/-- C3: on a table with the `Esq` and `centric_flag` columns present,
`set_wilson_outliers` sets each row's outlier flag to exactly the OR of its
previous value with (centric and `Esq > 23.91`) or (acentric and
`Esq > 13.82`): a reflection ends up flagged if and only if the Wilson test
fires for its class or the flag was already set, and a previously set flag
is never cleared. -/
theorem set_wilson_outliers_spec (tbl out : NTable)
    (h1 : tbl.hasEsq = true) (h2 : tbl.has_centric_flag = true)
    (hout : set_wilson_outliers tbl = some out) :
    out.rows = tbl.rows.map (fun r =>
      { r with outlier_in_scaling :=
          ((r.centric_flag && cellGT r.Esq (2391 / 100)) ||
            (!r.centric_flag && cellGT r.Esq (1382 / 100))) ||
            r.outlier_in_scaling }) := by
  unfold set_wilson_outliers at hout
  rw [h1, h2] at hout
  simp only [Bool.and_self, if_true, Option.some.injEq] at hout
  rw [← hout]
  show (tbl.rows.map _).map _ = _
  rw [List.map_map]
  apply mapCongrFn
  intro r
  show ({ r with outlier_in_scaling :=
      (r.outlier_in_scaling || (r.centric_flag && cellGT r.Esq (2391 / 100))) ||
        (!r.centric_flag && cellGT r.Esq (1382 / 100)) } : NRow) = _
  have hb : ((r.outlier_in_scaling ||
        (r.centric_flag && cellGT r.Esq (2391 / 100))) ||
        (!r.centric_flag && cellGT r.Esq (1382 / 100))) =
      (((r.centric_flag && cellGT r.Esq (2391 / 100)) ||
        (!r.centric_flag && cellGT r.Esq (1382 / 100))) ||
        r.outlier_in_scaling) :=
    boolOrShuffle _ _ _
  rw [hb]

/-- C3 witness: the outlier-flag characterisation applied to a concrete
four-row table; the first row is centric with `Esq = 24 > 23.91` and its
flag is raised. -/
theorem set_wilson_outliers_spec_witness :
    tblC3.hasEsq = true ∧ tblC3.has_centric_flag = true ∧
    set_wilson_outliers tblC3 =
      some (wilsonPassAcentric (wilsonPassCentric tblC3)) ∧
    (wilsonPassAcentric (wilsonPassCentric tblC3)).rows = tblC3.rows.map (fun r =>
      { r with outlier_in_scaling :=
          ((r.centric_flag && cellGT r.Esq (2391 / 100)) ||
            (!r.centric_flag && cellGT r.Esq (1382 / 100))) ||
            r.outlier_in_scaling }) ∧
    ((wilsonPassAcentric (wilsonPassCentric tblC3)).rows.getD 0
      default).outlier_in_scaling = true :=
  ⟨rfl, rfl, rfl,
    set_wilson_outliers_spec tblC3 (wilsonPassAcentric (wilsonPassCentric tblC3))
      rfl rfl rfl,
    by
      have hgt : cellGT (some 24) (2391 / 100) = true := by
        unfold cellGT
        simp only [decide_eq_true_eq]
        norm_num
      have h4 := set_wilson_outliers_spec tblC3
        (wilsonPassAcentric (wilsonPassCentric tblC3)) rfl rfl rfl
      rw [h4]
      rw [show tblC3.rows = { baseRow with Esq := some 24, centric_flag := true } ::
        ({ baseRow with Esq := some 14 } ::
          ({ baseRow with Esq := some 1, outlier_in_scaling := true } ::
            [{ baseRow with Esq := some (239 / 10), centric_flag := true }])) from rfl]
      rw [List.map_cons, List.getD_cons_zero]
      show (((true && cellGT (some 24) (2391 / 100)) ||
        (!true && cellGT (some 24) (1382 / 100))) || false) = true
      rw [hgt]
      rfl⟩

/-- C4: in the non-fallback path of `calc_normE2`, every reflection whose
`d` is 0 ends with `Esq` exactly 0 in the returned table (the final
override after the shell loops), and its `d` value is 0 in the final output
despite the internal sentinel substitution to 1.0. -/
theorem calc_normE2_d_zero_override (c : MillerIndex → Bool) (b : Binner)
    (tbl out : NTable) (n i : ℕ)
    (hsel : selectNShells (nAcentrics c tbl) (nCentrics c tbl) = some n)
    (hout : calc_normE2 c b tbl = some out)
    (hi : i < tbl.rows.length)
    (hd : (tbl.rows.getD i default).d = 0) :
    (out.rows.getD i default).Esq = some 0 ∧ (out.rows.getD i default).d = 0 := by
  rw [calcNormE2Row c b tbl out n i hsel hout hi]
  constructor
  · show normEsq c (classBinning c b tbl true n) (classBinning c b tbl false n)
      (tbl.rows.getD i default) = some 0
    unfold normEsq
    rw [if_pos hd]
  · show (tbl.rows.getD i default).d = 0
    exact hd

/-- C4 witness: the `d == 0` override theorem applied to a concrete
10001-row table whose first row has `d = 0`. -/
theorem calc_normE2_d_zero_override_witness :
    (tblC4.rows.getD 0 default).d = 0 ∧
    ((outC4.rows.getD 0 default).Esq = some 0 ∧
      (outC4.rows.getD 0 default).d = 0) :=
  ⟨by decide,
    calc_normE2_d_zero_override allAcentric binPos tblC4 outC4 10 0
      (by rw [nAcentricsTblC4, nCentricsTblC4]; decide)
      calcTblC4
      (by rw [lengthTblC4]; norm_num)
      (by decide)⟩

/-- C5 counterexample: a table with an unflagged `d == 0` reflection makes
the statistics-subset resolution computation of line 210 divide by zero
(no sentinel substitution is applied there), while the guarded full-table
recomputation of lines 264-266 does not, refuting the claim that every
resolution computation is guarded. -/
theorem resolution_guard_cex :
    (tblC5.rows.getD 0 default).d = 0 ∧
    (tblC5.rows.getD 0 default).bad_for_scaling = false ∧
    subsetResolutionDividesByZero tblC5 = true ∧
    fullResolutionDividesByZero tblC5 = false := by
  refine ⟨by decide, by decide, ?_, ?_⟩
  · unfold subsetResolutionDividesByZero
    rw [show subsetRows tblC5 = [rowD0, baseRow] from rfl]
    rw [List.any_cons]
    have h : (decide (rowD0.d ^ 2 = 0)) = true := by
      simp only [decide_eq_true_eq]
      show (0 : ℚ) ^ 2 = 0
      norm_num
    rw [h]
    rfl
  · unfold fullResolutionDividesByZero
    rw [show tblC5.rows = [rowD0, baseRow] from rfl]
    rw [List.any_cons, List.any_cons, List.any_nil]
    have h0 : (decide ((if rowD0.d = 0 then (1 : ℚ) else rowD0.d) ^ 2 = 0)) = false := by
      simp only [decide_eq_false_iff_not]
      show ¬(if (0 : ℚ) = 0 then (1 : ℚ) else (0 : ℚ)) ^ 2 = 0
      norm_num
    have h1 : (decide ((if baseRow.d = 0 then (1 : ℚ) else baseRow.d) ^ 2 = 0)) = false := by
      simp only [decide_eq_false_iff_not]
      show ¬(if (1 : ℚ) = 0 then (1 : ℚ) else (1 : ℚ)) ^ 2 = 0
      norm_num
    rw [h0, h1]
    rfl

/-- C5 amended: the sentinel substitution guards only the full-table
recomputation of the resolution (lines 264-266), which never divides by
zero; the statistics-subset computation of line 210 applies no substitution
and divides by zero whenever an unflagged subset row has `d == 0`. -/
theorem resolution_guard_amended (tbl : NTable)
    (h : ∃ r ∈ subsetRows tbl, r.d = 0) :
    subsetResolutionDividesByZero tbl = true ∧
    fullResolutionDividesByZero tbl = false := by
  constructor
  · obtain ⟨r, hr, hd⟩ := h
    unfold subsetResolutionDividesByZero
    rw [List.any_eq_true]
    refine ⟨r, hr, ?_⟩
    simp only [decide_eq_true_eq, hd]
    norm_num
  · unfold fullResolutionDividesByZero
    rw [show (tbl.rows.any (fun r =>
        decide ((if r.d = 0 then (1 : ℚ) else r.d) ^ 2 = 0)) = false) =
      ¬(tbl.rows.any (fun r =>
        decide ((if r.d = 0 then (1 : ℚ) else r.d) ^ 2 = 0)) = true) from by
          rw [Bool.not_eq_true]]
    rw [List.any_eq_true]
    rintro ⟨r, -, hp⟩
    rw [decide_eq_true_eq] at hp
    by_cases hd : r.d = 0
    · rw [if_pos hd] at hp
      norm_num at hp
    · rw [if_neg hd] at hp
      exact pow_ne_zero 2 hd hp

/-- C5 amended witness: the amended theorem applied to the concrete
counterexample table. -/
theorem resolution_guard_amended_witness :
    (∃ r ∈ subsetRows tblC5, r.d = 0) ∧
    (subsetResolutionDividesByZero tblC5 = true ∧
      fullResolutionDividesByZero tblC5 = false) :=
  ⟨⟨rowD0, by decide, by decide⟩,
    resolution_guard_amended tblC5 ⟨rowD0, by decide, by decide⟩⟩

/-- C6: the resolution-shell count of `calc_normE2` is 20 when either class
count exceeds 20000; else 15 when either exceeds 15000; else the fallback
path is taken when the acentric count is below 10000 — the centric count is
not examined at this step, so any centric count within the earlier bounds
gives the same selection; otherwise 10 shells are used, and a `none`
selection makes `calc_normE2` return the fallback table. -/
theorem selectNShells_spec (nA nC : ℕ) :
    ((20000 < nA ∨ 20000 < nC) → selectNShells nA nC = some 20) ∧
    (nA ≤ 20000 → nC ≤ 20000 → (15000 < nA ∨ 15000 < nC) →
      selectNShells nA nC = some 15) ∧
    (nA ≤ 15000 → nC ≤ 15000 → nA < 10000 → selectNShells nA nC = none) ∧
    (nA ≤ 15000 → nC ≤ 15000 → 10000 ≤ nA → selectNShells nA nC = some 10) ∧
    (∀ nC2, nA ≤ 15000 → nC ≤ 15000 → nC2 ≤ 15000 →
      selectNShells nA nC = selectNShells nA nC2) ∧
    (∀ (c : MillerIndex → Bool) (b : Binner) (tbl : NTable),
      selectNShells (nAcentrics c tbl) (nCentrics c tbl) = none →
      calc_normE2 c b tbl = some (fallbackTable tbl)) := by
  refine ⟨?_, ?_, ?_, ?_, ?_, fun c b tbl h => calcNormE2FallbackEq c b tbl h⟩
  · intro h
    unfold selectNShells
    rw [if_pos h]
  · intro h1 h2 h3
    unfold selectNShells
    rw [if_neg (by omega), if_pos h3]
  · intro h1 h2 h3
    unfold selectNShells
    rw [if_neg (by omega), if_neg (by omega), if_pos h3]
  · intro h1 h2 h3
    unfold selectNShells
    rw [if_neg (by omega), if_neg (by omega), if_neg (by omega)]
  · intro nC2 h1 h2 h3
    have e1 : selectNShells nA nC = if nA < 10000 then none else some 10 := by
      unfold selectNShells
      rw [if_neg (by omega), if_neg (by omega)]
    have e2 : selectNShells nA nC2 = if nA < 10000 then none else some 10 := by
      unfold selectNShells
      rw [if_neg (by omega), if_neg (by omega)]
    rw [e1, e2]

/-- C6 witness: the shell-count selection evaluated on concrete counts in
each branch, including a fallback decided by a small acentric count next to
a large centric count, and the insensitivity to the centric count. -/
theorem selectNShells_spec_witness :
    selectNShells 25000 0 = some 20 ∧
    selectNShells 16000 300 = some 15 ∧
    selectNShells 9999 15000 = none ∧
    selectNShells 10000 0 = some 10 ∧
    selectNShells 12000 0 = selectNShells 12000 15000 :=
  ⟨(selectNShells_spec 25000 0).1 (Or.inl (by norm_num)),
    (selectNShells_spec 16000 300).2.1 (by norm_num) (by norm_num)
      (Or.inl (by norm_num)),
    (selectNShells_spec 9999 15000).2.2.1 (by norm_num) (by norm_num)
      (by norm_num),
    (selectNShells_spec 10000 0).2.2.2.1 (by norm_num) (by norm_num)
      (by norm_num),
    (selectNShells_spec 12000 0).2.2.2.2.1 15000 (by norm_num) (by norm_num)
      (by norm_num)⟩

/-- C7 counterexample: the axis (0,0,-1) has a zero-length cross product
with the reference axis (0,0,1), yet `align_rotation_axis_along_z` does not
take the special case for it: the general path runs and returns the
rotator's output (here an observably different vector list), not the input
vectors. -/
theorem align_axis_special_case_cex :
    crossWithZ ((0 : ℚ), (0 : ℚ), (-1 : ℚ)) = ((0 : ℚ), (0 : ℚ), (0 : ℚ)) ∧
    align_rotation_axis_along_z cexRotate (fun q => q) (fun q => q)
      [((0 : ℚ), (0 : ℚ), (-1 : ℚ))] [((1 : ℚ), (0 : ℚ), (0 : ℚ))] =
      [((2 : ℚ), (0 : ℚ), (0 : ℚ))] ∧
    ([((2 : ℚ), (0 : ℚ), (0 : ℚ))] : List Vec3) ≠
      [((1 : ℚ), (0 : ℚ), (0 : ℚ))] := by
  refine ⟨by simp [crossWithZ], ?_, by decide⟩
  unfold align_rotation_axis_along_z
  rw [if_neg (by decide)]
  rfl

/-- C7 amended: the special case of `align_rotation_axis_along_z` applies
exactly to the axis list equal to `[(0.0, 0.0, 1.0)]`; for it the input
vectors are returned unchanged, with no angle computation and hence no
division; other axes parallel to the reference axis take the general
path. -/
theorem align_axis_special_case_amended (rotate : Rotator)
    (acosF sqrtF : ℚ → ℚ) (vectors : List Vec3) :
    align_rotation_axis_along_z rotate acosF sqrtF
      [((0 : ℚ), (0 : ℚ), (1 : ℚ))] vectors = vectors :=
  alignZId rotate acosF sqrtF vectors

/-- C8: when the rotation axis is the canonical reference axis (0,0,1), the
`s1c` and `s0c` columns produced by `calc_crystal_frame_vectors` are exactly
the de-rotated vectors: `s1` and the replicated beam vector rotated about
the axis by minus each reflection's phi angle converted to radians; the
re-alignment step is the identity. -/
theorem frame_vectors_canonical_axis (rotate : Rotator) (acosF sqrtF : ℚ → ℚ)
    (beam_s0 : Vec3) (tbl : VTable) :
    (calc_crystal_frame_vectors rotate acosF sqrtF beam_s0
      ((0 : ℚ), (0 : ℚ), (1 : ℚ)) tbl).s1c =
      some (rotate [((0 : ℚ), (0 : ℚ), (1 : ℚ))] (tbl.rows.map VRow.s1)
        (derotationAngles tbl)) ∧
    (calc_crystal_frame_vectors rotate acosF sqrtF beam_s0
      ((0 : ℚ), (0 : ℚ), (1 : ℚ)) tbl).s0c =
      some (rotate [((0 : ℚ), (0 : ℚ), (1 : ℚ))]
        (List.replicate tbl.rows.length beam_s0) (derotationAngles tbl)) := by
  constructor
  · show some (align_rotation_axis_along_z rotate acosF sqrtF
      [((0 : ℚ), (0 : ℚ), (1 : ℚ))]
      (rotate [((0 : ℚ), (0 : ℚ), (1 : ℚ))] (tbl.rows.map VRow.s1)
        (derotationAngles tbl))) = _
    rw [alignZId]
  · show some (align_rotation_axis_along_z rotate acosF sqrtF
      [((0 : ℚ), (0 : ℚ), (1 : ℚ))]
      (rotate [((0 : ℚ), (0 : ℚ), (1 : ℚ))]
        (List.replicate tbl.rows.length beam_s0) (derotationAngles tbl))) = _
    rw [alignZId]

/-- C9: in the non-fallback path of `calc_normE2`, a reflection whose
(sentinel-substituted) resolution lies in no half-open interior shell
interval `(limits[j], limits[j+1]]` of its own symmetry class — in
particular one whose resolution equals the lowest bin boundary — keeps the
initialisation value: its `Esq` is exactly 0 in the returned table. -/
theorem calc_normE2_boundary_keeps_zero (c : MillerIndex → Bool) (b : Binner)
    (tbl out : NTable) (n i : ℕ)
    (hsel : selectNShells (nAcentrics c tbl) (nCentrics c tbl) = some n)
    (hout : calc_normE2 c b tbl = some out)
    (hi : i < tbl.rows.length)
    (hns : noShellMatch
      (classBinning c b tbl (c (tbl.rows.getD i default).miller_index) n)
      (resOfRow (tbl.rows.getD i default))) :
    (out.rows.getD i default).Esq = some 0 := by
  rw [calcNormE2Row c b tbl out n i hsel hout hi]
  show normEsq c (classBinning c b tbl true n) (classBinning c b tbl false n)
    (tbl.rows.getD i default) = some 0
  unfold normEsq
  by_cases hd : (tbl.rows.getD i default).d = 0
  · rw [if_pos hd]
  · rw [if_neg hd]
    cases hcc : c (tbl.rows.getD i default).miller_index
    · rw [hcc] at hns
      rw [if_neg Bool.false_ne_true]
      exact shellAssignSkip _ _ _ _ hns
    · rw [hcc] at hns
      rw [if_pos rfl]
      exact shellAssignSkip _ _ _ _ hns

/-- C9 witness: the boundary theorem applied to a concrete table whose
probe reflection has resolution exactly 1, the lowest bin boundary of its
class's single interior shell (1, 100]; its `Esq` is 0 in the output. -/
theorem calc_normE2_boundary_keeps_zero_witness :
    resOfRow (tblC9.rows.getD 0 default) = boEdge.limits.getD 0 0 ∧
    (outC9.rows.getD 0 default).Esq = some 0 := by
  have hres : resOfRow (tblC9.rows.getD 0 default) = 1 := by
    show (1 : ℚ) / (if (1 : ℚ) = 0 then 1 else (1 : ℚ)) ^ 2 = 1
    norm_num
  refine ⟨by rw [hres]; rfl, ?_⟩
  refine calc_normE2_boundary_keeps_zero allAcentric binEdge tblC9 outC9 10 0
    (by rw [nAcentricsTblC9, nCentricsTblC9]; decide)
    calcTblC9
    (by rw [lengthTblC9]; norm_num)
    ?_
  have hcb : classBinning allAcentric binEdge tblC9
      (allAcentric (tblC9.rows.getD 0 default).miller_index) 10 =
      some boEdge := classBinningTblC9False
  rw [hcb, hres]
  intro j hj
  have hj0 : j = 0 := Nat.lt_one_iff.mp hj
  subst hj0
  show ¬((1 : ℚ) < 1 ∧ (1 : ℚ) ≤ 100)
  norm_num

/-- C10: `calc_crystal_frame_vectors` writes exactly the columns `s0`,
`s0c` and `s1c`: the permanent row columns (`s1`, `phi`, `intensity`, `d`,
`miller_index`) and every other pre-existing column are returned unchanged,
and — whenever the external rotator is length-preserving — the new columns
have exactly one entry per row, so no rows are added or removed. -/
theorem frame_vectors_frame_effect (rotate : Rotator) (acosF sqrtF : ℚ → ℚ)
    (beam_s0 rot_axis : Vec3) (tbl : VTable)
    (hlen : ∀ ax vecs angs, (rotate ax vecs angs).length = vecs.length) :
    (calc_crystal_frame_vectors rotate acosF sqrtF beam_s0 rot_axis tbl).rows =
      tbl.rows ∧
    (calc_crystal_frame_vectors rotate acosF sqrtF beam_s0 rot_axis tbl).extra =
      tbl.extra ∧
    (calc_crystal_frame_vectors rotate acosF sqrtF beam_s0 rot_axis tbl).s0 =
      some (List.replicate tbl.rows.length beam_s0) ∧
    ((calc_crystal_frame_vectors rotate acosF sqrtF beam_s0 rot_axis
      tbl).s1c.map List.length) = some tbl.rows.length ∧
    ((calc_crystal_frame_vectors rotate acosF sqrtF beam_s0 rot_axis
      tbl).s0c.map List.length) = some tbl.rows.length := by
  refine ⟨rfl, rfl, rfl, ?_, ?_⟩
  · show some (align_rotation_axis_along_z rotate acosF sqrtF [rot_axis]
      (rotate [rot_axis] (tbl.rows.map VRow.s1) (derotationAngles tbl))).length =
      some tbl.rows.length
    rw [alignLength rotate acosF sqrtF _ _ hlen, hlen, List.length_map]
  · show some (align_rotation_axis_along_z rotate acosF sqrtF [rot_axis]
      (rotate [rot_axis] (List.replicate tbl.rows.length beam_s0)
        (derotationAngles tbl))).length = some tbl.rows.length
    rw [alignLength rotate acosF sqrtF _ _ hlen, hlen, List.length_replicate]

/-- C10 witness: the frame-effect theorem applied to a one-row table with
an extra pre-existing column, a non-canonical axis and the identity
rotator. -/
theorem frame_vectors_frame_effect_witness :
    (calc_crystal_frame_vectors idRotate (fun q => q) (fun q => q)
      ((0 : ℚ), (1 : ℚ), (0 : ℚ)) ((0 : ℚ), (1 : ℚ), (0 : ℚ)) tblV).rows =
      tblV.rows ∧
    (calc_crystal_frame_vectors idRotate (fun q => q) (fun q => q)
      ((0 : ℚ), (1 : ℚ), (0 : ℚ)) ((0 : ℚ), (1 : ℚ), (0 : ℚ)) tblV).extra =
      tblV.extra ∧
    (calc_crystal_frame_vectors idRotate (fun q => q) (fun q => q)
      ((0 : ℚ), (1 : ℚ), (0 : ℚ)) ((0 : ℚ), (1 : ℚ), (0 : ℚ)) tblV).s0 =
      some (List.replicate tblV.rows.length ((0 : ℚ), (1 : ℚ), (0 : ℚ))) ∧
    ((calc_crystal_frame_vectors idRotate (fun q => q) (fun q => q)
      ((0 : ℚ), (1 : ℚ), (0 : ℚ)) ((0 : ℚ), (1 : ℚ), (0 : ℚ))
      tblV).s1c.map List.length) = some tblV.rows.length ∧
    ((calc_crystal_frame_vectors idRotate (fun q => q) (fun q => q)
      ((0 : ℚ), (1 : ℚ), (0 : ℚ)) ((0 : ℚ), (1 : ℚ), (0 : ℚ))
      tblV).s0c.map List.length) = some tblV.rows.length :=
  frame_vectors_frame_effect idRotate (fun q => q) (fun q => q)
    ((0 : ℚ), (1 : ℚ), (0 : ℚ)) ((0 : ℚ), (1 : ℚ), (0 : ℚ)) tblV
    (fun _ _ _ => rfl)
